import Mathlib

/-!
Verification development for the directory-scanning and JSON persistence core
of the repository (src/modules/playground/lib/path-to-json.ts).

Modelling conventions of the shallow embedding:
- The filesystem visible to one scan is a value of the inductive type
  FsEntry.  A directory entry carries a flag telling whether its listing
  can be read (a failing readdir throws in the source and is caught); a
  file entry carries its stat size, its text content and two flags telling
  whether the stat call and the content read succeed.  Entries that are
  neither directories nor regular files (symlinks, sockets, ...) are the
  third constructor; the source skips them silently because it only tests
  isDirectory and isFile.
- The root argument of scanTemplateDirectory is an Option FsEntry: none
  models a path whose stat call throws (missing or unreadable path).
- Persisted documents are modelled at the JSON value level by the
  inductive type Json.  The text codec (JSON.stringify and JSON.parse) is
  the platform library; readTemplateStructureFromJson receives none when
  reading or parsing the stored text throws, which the source catches.
  The unchecked cast of the parsed value in the source is modelled by the
  decoder decodeFolder; every document written by the save operation
  decodes successfully.
- JavaScript truthiness of the merged maxFileSize number is modelled by
  comparing the natural number with zero.
- The three default RegExp ignore patterns are embedded as executable
  Boolean predicates on the entry name with the exact JavaScript
  semantics of each pattern (the dot metacharacter does not match line
  terminators); user-supplied patterns are arbitrary Boolean predicates.
-/

/-- TemplateFile mirrors the interface TemplateFile of the source: base name
without extension, extension without the leading dot, and text content. -/
structure TemplateFile where
  filename : String
  fileExtension : String
  content : String
deriving DecidableEq

/-- TemplateItem mirrors the union type TemplateItem of the source; the
folder case inlines the two fields of TemplateFolder so that the type is a
single nested inductive. -/
inductive TemplateItem where
  | file (f : TemplateFile)
  | folder (folderName : String) (items : List TemplateItem)

/-- TemplateFolder mirrors the interface TemplateFolder of the source. -/
structure TemplateFolder where
  folderName : String
  items : List TemplateItem

/-- Json values, the image of JSON.parse on well-formed document text. -/
inductive Json where
  | str (s : String)
  | num (n : Int)
  | bool (b : Bool)
  | null
  | arr (elems : List Json)
  | obj (fields : List (String × Json))

/-- EMPTY_TEMPLATE is the safe default of the source: a folder named
empty-template with no items. -/
def EMPTY_TEMPLATE : TemplateFolder := ⟨"empty-template", []⟩

mutual

/-- encodeItem maps a tree item to the Json value that JSON.stringify
serializes for it: a file becomes an object with the three file fields, a
folder an object with folderName and items. -/
def encodeItem : TemplateItem → Json
  | .file f => .obj [("filename", .str f.filename),
      ("fileExtension", .str f.fileExtension), ("content", .str f.content)]
  | .folder n items => .obj [("folderName", .str n), ("items", .arr (encodeItems items))]

/-- encodeItems maps encodeItem over a list of items. -/
def encodeItems : List TemplateItem → List Json
  | [] => []
  | i :: is => encodeItem i :: encodeItems is

end

/-- encodeFolder serializes a TemplateFolder to its Json document. -/
def encodeFolder (f : TemplateFolder) : Json :=
  .obj [("folderName", .str f.folderName), ("items", .arr (encodeItems f.items))]

mutual

/-- decodeItem reads a tree item back from a Json value; it models the
shape the unchecked cast of the source relies on. -/
def decodeItem : Json → Option TemplateItem
  | .obj [("filename", .str fn), ("fileExtension", .str fe), ("content", .str c)] =>
      some (.file ⟨fn, fe, c⟩)
  | .obj [("folderName", .str n), ("items", .arr xs)] =>
      (decodeItems xs).map (TemplateItem.folder n)
  | _ => none

/-- decodeItems decodes every element of a Json array, failing if any
element fails. -/
def decodeItems : List Json → Option (List TemplateItem)
  | [] => some []
  | x :: xs =>
      match decodeItem x, decodeItems xs with
      | some i, some is => some (i :: is)
      | _, _ => none

end

/-- decodeFolder reads a TemplateFolder back from a Json document. -/
def decodeFolder : Json → Option TemplateFolder
  | .obj [("folderName", .str n), ("items", .arr xs)] =>
      (decodeItems xs).map (fun items => ⟨n, items⟩)
  | _ => none

/-- readTemplateStructureFromJson models the load operation of the source:
doc is none when reading the file or parsing its text throws, and the
catch block returns EMPTY_TEMPLATE; otherwise the parsed Json value is
cast to a TemplateFolder, modelled by decodeFolder. -/
def readTemplateStructureFromJson (doc : Option Json) : TemplateFolder :=
  match doc with
  | none => EMPTY_TEMPLATE
  | some j => (decodeFolder j).getD EMPTY_TEMPLATE

/-- ScanOptions mirrors the optional fields of the interface ScanOptions of
the source; RegExp values are modelled as Boolean predicates on names. -/
structure ScanOptions where
  ignoreFiles : Option (List String)
  ignoreFolders : Option (List String)
  ignorePatterns : Option (List (String → Bool))
  maxFileSize : Option Nat

/-- MergedOptions is the shape of the merged options object: after the
merge every field is present. -/
structure MergedOptions where
  ignoreFiles : List String
  ignoreFolders : List String
  ignorePatterns : List (String → Bool)
  maxFileSize : Nat

/-- defaultIgnoreFiles is the ignoreFiles list of defaultOptions in
scanTemplateDirectory. -/
def defaultIgnoreFiles : List String :=
  ["package-lock.json", "yarn.lock", ".DS_Store", "thumbs.db", ".gitignore",
   ".npmrc", ".yarnrc", ".env", ".env.local", ".env.development", ".env.production"]

/-- defaultIgnoreFolders is the ignoreFolders list of defaultOptions. -/
def defaultIgnoreFolders : List String :=
  ["node_modules", ".git", ".vscode", ".idea", "dist", "build", "coverage"]

/-- noLineTerminator holds for characters matched by the JavaScript regular
expression dot metacharacter (everything but the four line terminators). -/
def noLineTerminator (c : Char) : Bool :=
  !(c = '\n' || c = '\r' || c = Char.ofNat 0x2028 || c = Char.ofNat 0x2029)

/-- swpFilePattern embeds the first default RegExp: a leading dot, then at
least one non-line-terminator character, then a literal dot-s-w-p suffix
at the end of the name. -/
def swpFilePattern (n : String) : Bool :=
  let cs := n.toList
  decide (6 ≤ cs.length) && decide (cs.take 1 = ['.'])
    && decide (cs.drop (cs.length - 4) = ['.', 's', 'w', 'p'])
    && ((cs.drop 1).take (cs.length - 5)).all noLineTerminator

/-- emacsLockPattern embeds the second default RegExp: the name starts with
a dot followed by a hash sign. -/
def emacsLockPattern (n : String) : Bool :=
  decide (n.toList.take 2 = ['.', '#'])

/-- backupFilePattern embeds the third default RegExp: the name ends with a
tilde. -/
def backupFilePattern (n : String) : Bool :=
  let cs := n.toList
  decide (cs.drop (cs.length - 1) = ['~'])

/-- defaultIgnorePatterns is the ignorePatterns list of defaultOptions. -/
def defaultIgnorePatterns : List (String → Bool) :=
  [swpFilePattern, emacsLockPattern, backupFilePattern]

/-- defaultMaxFileSize is the maxFileSize of defaultOptions, one mebibyte. -/
def defaultMaxFileSize : Nat := 1024 * 1024

/-- defaultOptions mirrors the local defaultOptions object of
scanTemplateDirectory. -/
def defaultOptions : ScanOptions :=
  ⟨some defaultIgnoreFiles, some defaultIgnoreFolders,
   some defaultIgnorePatterns, some defaultMaxFileSize⟩

/-- mergeOptions mirrors the mergedOptions object: list options are the
defaults with the user values appended (a missing side contributes the
empty list), while maxFileSize is the user value exactly when it is
supplied and the default otherwise.  The default side of each list option
is always present, so getD only unwraps it. -/
def mergeOptions (options : ScanOptions) : MergedOptions :=
  ⟨defaultOptions.ignoreFiles.getD [] ++ options.ignoreFiles.getD [],
   defaultOptions.ignoreFolders.getD [] ++ options.ignoreFolders.getD [],
   defaultOptions.ignorePatterns.getD [] ++ options.ignorePatterns.getD [],
   match options.maxFileSize with
   | some v => v
   | none => defaultMaxFileSize⟩

/-- FsEntry models one directory entry of the filesystem under scan, with
explicit success flags for the fallible stat, readFile and readdir calls. -/
inductive FsEntry where
  | file (name : String) (size : Nat) (content : String) (statOk : Bool) (readOk : Bool)
  | dir (name : String) (readdirOk : Bool) (entries : List FsEntry)
  | other (name : String)

/-- lastIdxOf returns the index of the rightmost occurrence of a character
in a list, the search underlying the extension split of path.parse. -/
def lastIdxOf (c : Char) : List Char → Option Nat
  | [] => none
  | x :: xs =>
      match lastIdxOf c xs with
      | some i => some (i + 1)
      | none => if x = c then some 0 else none

/-- pathParseName models the name field of path.parse on a base name: the
part before the rightmost dot, except that a name with no dot, a name
whose only dot is the leading character, and the literal name dot-dot
keep the whole base name. -/
def pathParseName (b : String) : String :=
  if b = ".." then b
  else
    match lastIdxOf '.' b.toList with
    | none => b
    | some 0 => b
    | some (i + 1) => ⟨b.toList.take (i + 1)⟩

/-- pathParseExt models the ext field of path.parse on a base name: the
rightmost dot and everything after it, empty in the same three cases in
which pathParseName keeps the whole name. -/
def pathParseExt (b : String) : String :=
  if b = ".." then ""
  else
    match lastIdxOf '.' b.toList with
    | none => ""
    | some 0 => ""
    | some (i + 1) => ⟨b.toList.drop (i + 1)⟩

/-- removeFirst drops the first occurrence of a character from a list; it
models the JavaScript replace of one string occurrence by the empty
string. -/
def removeFirst (c : Char) : List Char → List Char
  | [] => []
  | x :: xs => if x = c then xs else x :: removeFirst c xs

/-- fileExtensionOf is the fileExtension the scanner stores: the parsed
extension with its first dot removed. -/
def fileExtensionOf (b : String) : String :=
  ⟨removeFirst '.' (pathParseExt b).toList⟩

/-- tooLargeMarker is the placeholder content stored for an oversize file,
naming its byte size. -/
def tooLargeMarker (size : Nat) : String :=
  "[File too large: " ++ toString size ++ " bytes]"

mutual

/-- processEntry models the body of the entry loop of processDirectory for
one entry: directory entries are pruned by ignoreFolders before any
descent and otherwise recursed into; file entries are filtered by
ignoreFiles and ignorePatterns, then turned into a node whose content is
the placeholder for an oversize file (when the merged maxFileSize is
truthy), the file text when the read succeeds, and empty when the stat or
the read throws; other entry kinds are skipped. -/
def processEntry (options : MergedOptions) : FsEntry → Option TemplateItem
  | .dir entryName readdirOk entries =>
      if entryName ∈ options.ignoreFolders then none
      else some (.folder entryName (if readdirOk then processItems options entries else []))
  | .file entryName size content statOk readOk =>
      if entryName ∈ options.ignoreFiles then none
      else if options.ignorePatterns.any (fun p => p entryName) then none
      else if statOk then
        if options.maxFileSize ≠ 0 ∧ size > options.maxFileSize then
          some (.file ⟨pathParseName entryName, fileExtensionOf entryName, tooLargeMarker size⟩)
        else if readOk then
          some (.file ⟨pathParseName entryName, fileExtensionOf entryName, content⟩)
        else
          some (.file ⟨pathParseName entryName, fileExtensionOf entryName, ""⟩)
      else
        some (.file ⟨pathParseName entryName, fileExtensionOf entryName, ""⟩)
  | .other _ => none

/-- processItems models the entry loop itself: entries are processed in
listing order and each produced item is appended. -/
def processItems (options : MergedOptions) : List FsEntry → List TemplateItem
  | [] => []
  | e :: es =>
      match processEntry options e with
      | some item => item :: processItems options es
      | none => processItems options es

end

/-- processDirectory models the function of the same name: when the listing
of the directory can be read its entries are processed in order, and when
readdir throws the catch block leaves the items empty. -/
def processDirectory (folderName : String) (readdirOk : Bool) (entries : List FsEntry)
    (options : MergedOptions) : TemplateFolder :=
  ⟨folderName, if readdirOk then processItems options entries else []⟩

/-- scanTemplateDirectory models the function of the same name: options are
merged with the defaults, a root whose stat throws or which is not a
directory yields EMPTY_TEMPLATE, and otherwise the root directory is
processed under its own base name. -/
def scanTemplateDirectory (templateRoot : Option FsEntry) (options : ScanOptions) :
    TemplateFolder :=
  let mergedOptions := mergeOptions options
  match templateRoot with
  | none => EMPTY_TEMPLATE
  | some (.file _ _ _ _ _) => EMPTY_TEMPLATE
  | some (.other _) => EMPTY_TEMPLATE
  | some (.dir name readdirOk entries) => processDirectory name readdirOk entries mergedOptions

/-- saveTemplateStructureToJson models the save operation at the document
level: it scans the root and serializes the resulting tree.  The scan is
total, so the catch path of the source that writes EMPTY_TEMPLATE is
unreachable in the model, and the nullish fallback before stringify is
likewise dead. -/
def saveTemplateStructureToJson (templateRoot : Option FsEntry) (options : ScanOptions) : Json :=
  encodeFolder (scanTemplateDirectory templateRoot options)

mutual

/-- itemInv checks the structural invariant of one produced tree item: file
names and folder names contain no path separator and file extensions
contain no dot. -/
def itemInv : TemplateItem → Bool
  | .file f => f.filename.toList.all (fun c => c != '/')
      && f.fileExtension.toList.all (fun c => c != '.')
  | .folder n items => n.toList.all (fun c => c != '/') && itemsInv items

/-- itemsInv checks itemInv on every element of a list of items. -/
def itemsInv : List TemplateItem → Bool
  | [] => true
  | i :: is => itemInv i && itemsInv is

end

/-- folderInv checks the structural invariant of a produced folder. -/
def folderInv (f : TemplateFolder) : Bool :=
  f.folderName.toList.all (fun c => c != '/') && itemsInv f.items

mutual

/-- entryNamesOk states that every entry name in a filesystem value is a
single path segment, i.e. contains no separator, as real directory
entries do. -/
def entryNamesOk : FsEntry → Bool
  | .file n _ _ _ _ => n.toList.all (fun c => c != '/')
  | .dir n _ entries => n.toList.all (fun c => c != '/') && entriesNamesOk entries
  | .other n => n.toList.all (fun c => c != '/')

/-- entriesNamesOk checks entryNamesOk on every entry of a listing. -/
def entriesNamesOk : List FsEntry → Bool
  | [] => true
  | e :: es => entryNamesOk e && entriesNamesOk es

end

/-- rootNamesOk lifts entryNamesOk to the optional scan root. -/
def rootNamesOk : Option FsEntry → Bool
  | none => true
  | some e => entryNamesOk e

mutual

/-- decode_encode_item states that decoding inverts encoding on one item. -/
theorem decode_encode_item (i : TemplateItem) : decodeItem (encodeItem i) = some i := by
  cases i with
  | file f => rfl
  | folder n items => simp [encodeItem, decodeItem, decode_encode_items items]

/-- decode_encode_items states that decoding inverts encoding on item lists. -/
theorem decode_encode_items (l : List TemplateItem) : decodeItems (encodeItems l) = some l := by
  cases l with
  | nil => rfl
  | cons i is => simp [encodeItems, decodeItems, decode_encode_item i, decode_encode_items is]

end

/-- decodeFolder_encodeFolder states that decoding inverts encoding on a
whole folder document. -/
theorem decodeFolder_encodeFolder (f : TemplateFolder) :
    decodeFolder (encodeFolder f) = some f := by
  simp [encodeFolder, decodeFolder, decode_encode_items f.items]

/-- lastIdxOf_eq_none states that a character with no index of occurrence
does not occur. -/
theorem lastIdxOf_eq_none (c : Char) :
    ∀ cs : List Char, lastIdxOf c cs = none → cs.all (fun x => x != c) = true
  | [], _ => rfl
  | x :: xs, h => by
      unfold lastIdxOf at h
      cases hx : lastIdxOf c xs with
      | some i => rw [hx] at h; exact absurd h (by simp)
      | none =>
          rw [hx] at h
          by_cases hxc : x = c
          · rw [if_pos hxc] at h; exact absurd h (by simp)
          · simp [List.all_cons, hxc, lastIdxOf_eq_none c xs hx]

/-- lastIdxOf_spec states that the returned index points at the character
and that no later position holds it. -/
theorem lastIdxOf_spec (c : Char) :
    ∀ (cs : List Char) (i : Nat), lastIdxOf c cs = some i →
      cs.drop i = c :: cs.drop (i + 1) ∧ (cs.drop (i + 1)).all (fun x => x != c) = true
  | [], i, h => by simp [lastIdxOf] at h
  | x :: xs, i, h => by
      unfold lastIdxOf at h
      cases hx : lastIdxOf c xs with
      | some j =>
          rw [hx] at h
          obtain rfl : j + 1 = i := by simpa using h
          have ih := lastIdxOf_spec c xs j hx
          simpa using ih
      | none =>
          rw [hx] at h
          by_cases hxc : x = c
          · rw [if_pos hxc] at h
            obtain rfl : (0 : Nat) = i := by simpa using h
            exact ⟨by simp [hxc], lastIdxOf_eq_none c xs hx⟩
          · rw [if_neg hxc] at h; exact absurd h (by simp)

/-- fileExtensionOf_noDot states that the stored extension field never
contains a dot: the parsed extension has its sole dot in front, and the
replace call removes it. -/
theorem fileExtensionOf_noDot (b : String) :
    (fileExtensionOf b).toList.all (fun c => c != '.') = true := by
  unfold fileExtensionOf pathParseExt
  by_cases hb : b = ".."
  · simp [hb, removeFirst, String.toList]
  · rw [if_neg hb]
    cases h : lastIdxOf '.' b.toList with
    | none => simp [removeFirst, String.toList]
    | some i =>
        cases i with
        | zero => simp [removeFirst, String.toList]
        | succ j =>
            have hs := lastIdxOf_spec '.' b.toList (j + 1) h
            show (removeFirst '.' (String.toList ⟨b.toList.drop (j + 1)⟩)).all _ = true
            have hmk : (String.toList ⟨b.toList.drop (j + 1)⟩) = b.toList.drop (j + 1) := rfl
            rw [hmk, hs.1]
            unfold removeFirst
            rw [if_pos rfl]
            exact hs.2

/-- pathParseName_noSlash states that the stored file name contains no path
separator whenever the directory entry name contains none. -/
theorem pathParseName_noSlash (b : String)
    (h : b.toList.all (fun c => c != '/') = true) :
    (pathParseName b).toList.all (fun c => c != '/') = true := by
  unfold pathParseName
  by_cases hb : b = ".."
  · simp [hb]
  · rw [if_neg hb]
    cases hl : lastIdxOf '.' b.toList with
    | none => exact h
    | some i =>
        cases i with
        | zero => exact h
        | succ j =>
            have hmk : (String.toList ⟨b.toList.take (j + 1)⟩) = b.toList.take (j + 1) := rfl
            show (String.toList ⟨b.toList.take (j + 1)⟩).all _ = true
            rw [hmk]
            rw [List.all_eq_true] at h ⊢
            intro x hx
            exact h x (List.take_subset _ _ hx)

/-- processEntry_file_eq characterizes the node produced for a retained
file entry: placeholder content for an oversize file under a truthy size
bound, the file text when stat and read succeed, and empty content when
stat or read throws. -/
theorem processEntry_file_eq (o : MergedOptions) (n : String) (sz : Nat) (c : String)
    (s r : Bool) (hIgn : n ∉ o.ignoreFiles)
    (hPat : o.ignorePatterns.any (fun p => p n) = false) :
    processEntry o (.file n sz c s r)
      = some (.file ⟨pathParseName n, fileExtensionOf n,
          if s then
            (if o.maxFileSize ≠ 0 ∧ sz > o.maxFileSize then tooLargeMarker sz
             else if r then c else "")
          else ""⟩) := by
  unfold processEntry
  rw [if_neg hIgn, if_neg (by simp [hPat])]
  cases s with
  | false => simp
  | true =>
      by_cases hc : o.maxFileSize ≠ 0 ∧ sz > o.maxFileSize
      · simp [hc]
      · cases r <;> simp [hc]

/-- processItems_cons_some states that a produced item is appended in front
of the items of the remaining siblings. -/
theorem processItems_cons_some (o : MergedOptions) (e : FsEntry) (es : List FsEntry)
    (item : TemplateItem) (h : processEntry o e = some item) :
    processItems o (e :: es) = item :: processItems o es := by
  simp only [processItems]
  rw [h]

/-- processItems_cons_none states that a skipped entry contributes nothing
and the remaining siblings are still processed. -/
theorem processItems_cons_none (o : MergedOptions) (e : FsEntry) (es : List FsEntry)
    (h : processEntry o e = none) :
    processItems o (e :: es) = processItems o es := by
  simp only [processItems]
  rw [h]

/-- all_ne_of_all_bne converts a Boolean all-distinct check into its
propositional form. -/
theorem all_ne_of_all_bne {l : List Char} {c : Char}
    (h : l.all (fun x => x != c) = true) : ∀ x ∈ l, ¬x = c := by
  intro x hx
  have hb := List.all_eq_true.mp h x hx
  simpa using hb

mutual

/-- processEntry_inv states that every item produced for an entry with
single-segment names satisfies the structural invariant itemInv. -/
theorem processEntry_inv (o : MergedOptions) :
    ∀ e : FsEntry, entryNamesOk e = true →
      ∀ item, processEntry o e = some item → itemInv item = true
  | .dir n ok entries, h, item, hp => by
      unfold processEntry at hp
      by_cases hig : n ∈ o.ignoreFolders
      · rw [if_pos hig] at hp; exact absurd hp (by simp)
      · rw [if_neg hig] at hp
        injection hp with hi
        subst hi
        unfold entryNamesOk at h
        obtain ⟨h1, h2⟩ : n.toList.all (fun c => c != '/') = true ∧ entriesNamesOk entries = true := by
          simpa using h
        cases ok with
        | true =>
            simp [itemInv, processItems_inv o entries h2]
            exact all_ne_of_all_bne h1
        | false =>
            simp [itemInv, itemsInv]
            exact all_ne_of_all_bne h1
  | .file n sz c s r, h, item, hp => by
      by_cases hIgn : n ∈ o.ignoreFiles
      · have hnone : processEntry o (.file n sz c s r) = none := by
          unfold processEntry; rw [if_pos hIgn]
        rw [hnone] at hp; exact absurd hp (by simp)
      · by_cases hPat : o.ignorePatterns.any (fun p => p n) = true
        · have hnone : processEntry o (.file n sz c s r) = none := by
            unfold processEntry; rw [if_neg hIgn, if_pos hPat]
          rw [hnone] at hp; exact absurd hp (by simp)
        · have hPatF : o.ignorePatterns.any (fun p => p n) = false := by
            simpa using hPat
          rw [processEntry_file_eq o n sz c s r hIgn hPatF] at hp
          injection hp with hi
          subst hi
          unfold entryNamesOk at h
          simp only [itemInv, Bool.and_eq_true, List.all_eq_true]
          constructor
          · intro x hx
            have hb := List.all_eq_true.mp (pathParseName_noSlash n h) x hx
            simpa using hb
          · intro x hx
            have hb := List.all_eq_true.mp (fileExtensionOf_noDot n) x hx
            simpa using hb
  | .other n, h, item, hp => by
      unfold processEntry at hp; exact absurd hp (by simp)

/-- processItems_inv states that all items produced for a listing with
single-segment names satisfy the structural invariant. -/
theorem processItems_inv (o : MergedOptions) :
    ∀ es : List FsEntry, entriesNamesOk es = true → itemsInv (processItems o es) = true
  | [], _ => rfl
  | e :: es, h => by
      unfold entriesNamesOk at h
      obtain ⟨h1, h2⟩ : entryNamesOk e = true ∧ entriesNamesOk es = true := by simpa using h
      cases hp : processEntry o e with
      | none => rw [processItems_cons_none o e es hp]; exact processItems_inv o es h2
      | some item =>
          rw [processItems_cons_some o e es item hp]
          unfold itemsInv
          rw [processEntry_inv o e h1 item hp, processItems_inv o es h2]
          rfl

end

/-- C1: for every tree produced by the Scanner, loading the document saved
for it yields a structurally equal tree — the save and load pair is
lossless for the data model, preserving nesting, node attributes and item
order (stated as equality of the inductive tree values). -/
theorem save_load_roundtrip (templateRoot : Option FsEntry) (options : ScanOptions) :
    readTemplateStructureFromJson (some (saveTemplateStructureToJson templateRoot options))
      = scanTemplateDirectory templateRoot options := by
  show (decodeFolder (encodeFolder (scanTemplateDirectory templateRoot options))).getD
        EMPTY_TEMPLATE
      = scanTemplateDirectory templateRoot options
  rw [decodeFolder_encodeFolder]
  rfl

/-- C2: the load operation never throws (it is a total function of the
document) and returns the canonical empty tree — the zero-item folder
with the fixed placeholder name — whenever the document is missing,
unreadable or malformed, all of which the model condenses into a none
document. -/
theorem load_failure_returns_empty_template :
    readTemplateStructureFromJson none = EMPTY_TEMPLATE
      ∧ EMPTY_TEMPLATE.folderName = "empty-template" ∧ EMPTY_TEMPLATE.items = [] :=
  ⟨rfl, rfl, rfl⟩

/-- C3: scanning a root whose stat fails (missing or unreadable path) or
which is not a directory returns the empty-tree fallback for every
configuration, and the fallback is the zero-item folder with the fixed
placeholder name; the scan is a total function, so no error reaches the
caller. -/
theorem scan_missing_or_nondirectory_returns_empty_template :
    (∀ options : ScanOptions, scanTemplateDirectory none options = EMPTY_TEMPLATE)
    ∧ (∀ (options : ScanOptions) (n : String) (sz : Nat) (c : String) (s r : Bool),
        scanTemplateDirectory (some (.file n sz c s r)) options = EMPTY_TEMPLATE)
    ∧ (∀ (options : ScanOptions) (n : String),
        scanTemplateDirectory (some (.other n)) options = EMPTY_TEMPLATE)
    ∧ EMPTY_TEMPLATE.folderName = "empty-template" ∧ EMPTY_TEMPLATE.items = [] :=
  ⟨fun _ => rfl, fun _ _ _ _ _ _ => rfl, fun _ _ => rfl, rfl, rfl⟩

/-- C4 (counterexample): with maxFileSize explicitly configured to zero, a
retained readable file of size five exceeds the configured bound, yet the
scan stores its real content rather than the placeholder, because zero is
falsy in the size test — so the claim fails as stated for this
configuration. -/
theorem oversize_placeholder_claim_cex :
    scanTemplateDirectory (some (.dir "root" true [.file "a.txt" 5 "hello" true true]))
        ⟨none, none, none, some 0⟩
      = ⟨"root", [.file ⟨"a", "txt", "hello"⟩]⟩
    ∧ 5 > (mergeOptions ⟨none, none, none, some 0⟩).maxFileSize
    ∧ "hello" ≠ tooLargeMarker 5 :=
  ⟨rfl, by decide, by decide⟩

/-- C4 (amended): for every configuration whose effective merged
maxFileSize is nonzero (truthy), a retained file entry whose size exceeds
the bound yields a node whose content is the placeholder string naming
the literal byte count, and a retained readable file at or below the
bound yields its full text content; in both cases the node is placed in
front of the items produced for the remaining siblings. -/
theorem oversize_file_placeholder (options : ScanOptions) (n : String) (sz : Nat)
    (c : String) (r : Bool) (rest : List FsEntry)
    (hIgn : n ∉ (mergeOptions options).ignoreFiles)
    (hPat : (mergeOptions options).ignorePatterns.any (fun p => p n) = false)
    (hMax : (mergeOptions options).maxFileSize ≠ 0) :
    (sz > (mergeOptions options).maxFileSize →
      processItems (mergeOptions options) (.file n sz c true r :: rest)
        = .file ⟨pathParseName n, fileExtensionOf n, tooLargeMarker sz⟩
            :: processItems (mergeOptions options) rest)
    ∧ (sz ≤ (mergeOptions options).maxFileSize →
      processItems (mergeOptions options) (.file n sz c true true :: rest)
        = .file ⟨pathParseName n, fileExtensionOf n, c⟩
            :: processItems (mergeOptions options) rest) := by
  constructor
  · intro hsz
    refine processItems_cons_some _ _ _ _ ?_
    rw [processEntry_file_eq _ n sz c true r hIgn hPat]
    simp [hMax, hsz]
  · intro hsz
    refine processItems_cons_some _ _ _ _ ?_
    rw [processEntry_file_eq _ n sz c true true hIgn hPat]
    have hno : ¬((mergeOptions options).maxFileSize ≠ 0
        ∧ sz > (mergeOptions options).maxFileSize) := by
      rintro ⟨-, hgt⟩
      omega
    simp [hno]

/-- C4 witness: under the default configuration a two-mebibyte file gets
the placeholder content. -/
theorem oversize_file_placeholder_witness :
    processItems (mergeOptions ⟨none, none, none, none⟩)
        [FsEntry.file "big.txt" 2097152 "" true true]
      = [.file ⟨"big", "txt", tooLargeMarker 2097152⟩] :=
  (oversize_file_placeholder ⟨none, none, none, none⟩ "big.txt" 2097152 "" true []
      (by decide) (by decide) (by decide)).1 (by decide)

/-- C5 (counterexample): a file entry with an uppercase extension yields a
node whose extension field preserves the case — it is not lowercase — so
the lowercase part of the claim fails on the code, which never lowercases
the parsed extension. -/
theorem extension_not_lowercased_cex :
    scanTemplateDirectory (some (.dir "root" true [.file "A.TXT" 1 "x" true true]))
        ⟨none, none, none, none⟩
      = ⟨"root", [.file ⟨"A", "TXT", "x"⟩]⟩
    ∧ "TXT".toList.all (fun ch => !ch.isUpper) = false :=
  ⟨rfl, by decide⟩

/-- C5 (amended): every File node produced by the Scanner has an extension
field that never contains the separator dot (its case is preserved from
the entry name, not lowercased), and whenever every filesystem entry name
is a single path segment, every produced node name is a single path
segment as well — stated through the Boolean tree invariant folderInv. -/
theorem scan_name_and_extension_invariant (templateRoot : Option FsEntry)
    (options : ScanOptions) (h : rootNamesOk templateRoot = true) :
    folderInv (scanTemplateDirectory templateRoot options) = true := by
  cases templateRoot with
  | none => rfl
  | some e =>
      cases e with
      | file n sz c s r => rfl
      | other n => rfl
      | dir n ok entries =>
          show folderInv (processDirectory n ok entries (mergeOptions options)) = true
          unfold processDirectory folderInv
          unfold rootNamesOk entryNamesOk at h
          obtain ⟨h1, h2⟩ :
              n.toList.all (fun c => c != '/') = true ∧ entriesNamesOk entries = true := by
            simpa using h
          cases ok with
          | true =>
              simp [processItems_inv (mergeOptions options) entries h2]
              exact all_ne_of_all_bne h1
          | false =>
              simp [itemsInv]
              exact all_ne_of_all_bne h1

/-- C5 witness: a nested source tree satisfies the invariant. -/
theorem scan_name_and_extension_invariant_witness :
    folderInv (scanTemplateDirectory
        (some (.dir "src" true [.dir "utils" true [.file "helper.ts" 2 "x" true true]]))
        ⟨none, none, none, none⟩) = true :=
  scan_name_and_extension_invariant
    (some (.dir "src" true [.dir "utils" true [.file "helper.ts" 2 "x" true true]]))
    ⟨none, none, none, none⟩ (by decide)

/-- C6: a directory entry whose name is in the merged ignoreFolderNames set
is pruned before any descent: it produces no item, whatever the contents
of the directory, so those contents are never visited, and the remaining
siblings are processed unchanged. -/
theorem ignored_folder_pruned (options : ScanOptions) (n : String) (ok : Bool)
    (entries rest : List FsEntry)
    (h : n ∈ (mergeOptions options).ignoreFolders) :
    processEntry (mergeOptions options) (.dir n ok entries) = none
    ∧ processItems (mergeOptions options) (.dir n ok entries :: rest)
        = processItems (mergeOptions options) rest := by
  have hnone : processEntry (mergeOptions options) (.dir n ok entries) = none := by
    unfold processEntry
    rw [if_pos h]
  exact ⟨hnone, processItems_cons_none _ _ _ hnone⟩

/-- C6 witness: a directory literally named node_modules containing a file
that would otherwise be retained contributes zero items. -/
theorem ignored_folder_pruned_witness :
    processEntry (mergeOptions ⟨none, none, none, none⟩)
        (.dir "node_modules" true [.file "a.txt" 1 "x" true true]) = none
    ∧ processItems (mergeOptions ⟨none, none, none, none⟩)
        [FsEntry.dir "node_modules" true [.file "a.txt" 1 "x" true true]]
        = processItems (mergeOptions ⟨none, none, none, none⟩) [] :=
  ignored_folder_pruned ⟨none, none, none, none⟩ "node_modules" true
    [.file "a.txt" 1 "x" true true] [] (by decide)

/-- C7: a file entry produces no node exactly when its base name is in the
merged ignoreFileNames set or matches at least one merged ignore pattern;
every other file entry in a processed directory yields a node. -/
theorem file_entry_filter_characterization (options : ScanOptions) (n : String)
    (sz : Nat) (c : String) (s r : Bool) :
    processEntry (mergeOptions options) (.file n sz c s r) = none
      ↔ n ∈ (mergeOptions options).ignoreFiles
        ∨ (mergeOptions options).ignorePatterns.any (fun p => p n) = true := by
  constructor
  · intro hnone
    by_contra hcon
    push_neg at hcon
    obtain ⟨hIgn, hPat⟩ := hcon
    have hPatF : (mergeOptions options).ignorePatterns.any (fun p => p n) = false := by
      simpa using hPat
    rw [processEntry_file_eq _ n sz c s r hIgn hPatF] at hnone
    exact absurd hnone (by simp)
  · intro hor
    unfold processEntry
    rcases hor with hIgn | hPat
    · rw [if_pos hIgn]
    · by_cases hIgn : n ∈ (mergeOptions options).ignoreFiles
      · rw [if_pos hIgn]
      · rw [if_neg hIgn, if_pos hPat]

/-- C8: merging appends the user values after the default values for the
ignore-file, ignore-folder and ignore-pattern options — the defaults are
never replaced — while the effective maxFileSize is the user value
exactly when supplied and the one-mebibyte default otherwise. -/
theorem merge_options_appends_defaults (options : ScanOptions) :
    (mergeOptions options).ignoreFiles = defaultIgnoreFiles ++ options.ignoreFiles.getD []
    ∧ (mergeOptions options).ignoreFolders
        = defaultIgnoreFolders ++ options.ignoreFolders.getD []
    ∧ (mergeOptions options).ignorePatterns
        = defaultIgnorePatterns ++ options.ignorePatterns.getD []
    ∧ (mergeOptions options).maxFileSize = options.maxFileSize.getD defaultMaxFileSize
    ∧ defaultMaxFileSize = 1024 * 1024 := by
  obtain ⟨f, d, p, m⟩ := options
  refine ⟨rfl, rfl, rfl, ?_, rfl⟩
  cases m with
  | none => rfl
  | some v => rfl

/-- C9 (counterexample): a retained file that is both oversize and
unreadable receives the too-large placeholder, not empty content — the
read is never attempted once the size bound fires — so the unconditional
empty-content part of the claim fails. -/
theorem unreadable_oversize_placeholder_cex :
    scanTemplateDirectory (some (.dir "root" true [.file "big.txt" 2097152 "" true false]))
        ⟨none, none, none, none⟩
      = ⟨"root", [.file ⟨"big", "txt", tooLargeMarker 2097152⟩]⟩
    ∧ tooLargeMarker 2097152 ≠ "" :=
  ⟨rfl, by decide⟩

/-- C9 (amended): a retained file entry whose stat fails, or whose content
read fails while the size bound does not fire, still yields a node with
the correct name and extension and empty content, and the remaining
sibling entries are processed unchanged — the scan is total, so no
per-entry failure reaches the caller.  (An oversize unreadable file
instead receives the placeholder, since its content is never read.) -/
theorem unreadable_entry_absorbed (options : ScanOptions) (n : String) (sz : Nat)
    (c : String) (s r : Bool) (rest : List FsEntry)
    (hIgn : n ∉ (mergeOptions options).ignoreFiles)
    (hPat : (mergeOptions options).ignorePatterns.any (fun p => p n) = false)
    (hFail : s = false
      ∨ (r = false ∧ ¬((mergeOptions options).maxFileSize ≠ 0
            ∧ sz > (mergeOptions options).maxFileSize))) :
    processEntry (mergeOptions options) (.file n sz c s r)
        = some (.file ⟨pathParseName n, fileExtensionOf n, ""⟩)
    ∧ processItems (mergeOptions options) (.file n sz c s r :: rest)
        = .file ⟨pathParseName n, fileExtensionOf n, ""⟩
            :: processItems (mergeOptions options) rest := by
  have heq : processEntry (mergeOptions options) (.file n sz c s r)
      = some (.file ⟨pathParseName n, fileExtensionOf n, ""⟩) := by
    rw [processEntry_file_eq _ n sz c s r hIgn hPat]
    rcases hFail with hs | ⟨hr, hcond⟩
    · subst hs; rfl
    · subst hr
      cases s with
      | false => rfl
      | true => simp [hcond]
  exact ⟨heq, processItems_cons_some _ _ _ _ heq⟩

/-- C9 witness: a small file whose stat fails is included with empty
content. -/
theorem unreadable_entry_absorbed_witness :
    processItems (mergeOptions ⟨none, none, none, none⟩)
        [FsEntry.file "secret.txt" 10 "x" false true]
      = [.file ⟨"secret", "txt", ""⟩] :=
  (unreadable_entry_absorbed ⟨none, none, none, none⟩ "secret.txt" 10 "x" false true []
      (by decide) (by decide) (Or.inl rfl)).2

/-- C10: an explicitly supplied maxFileSize of zero is falsy, so the size
bound is disabled: for every size, a retained file entry yields a node
whose content is the full file text when stat and read succeed and empty
otherwise — the placeholder branch is never taken. -/
theorem maxFileSize_zero_disables_size_bound (options : ScanOptions) (n : String)
    (sz : Nat) (c : String)
    (hZero : options.maxFileSize = some 0)
    (hIgn : n ∉ (mergeOptions options).ignoreFiles)
    (hPat : (mergeOptions options).ignorePatterns.any (fun p => p n) = false) :
    ∀ s r : Bool,
      processEntry (mergeOptions options) (.file n sz c s r)
        = some (.file ⟨pathParseName n, fileExtensionOf n, if s && r then c else ""⟩) := by
  intro s r
  have hm : (mergeOptions options).maxFileSize = 0 := by
    unfold mergeOptions
    rw [hZero]
  rw [processEntry_file_eq _ n sz c s r hIgn hPat]
  cases s with
  | false => rfl
  | true =>
      cases r with
      | true => simp [hm]
      | false => simp [hm]

/-- C10 witness: with maxFileSize zero a gigabyte-sized readable file keeps
its full content. -/
theorem maxFileSize_zero_disables_size_bound_witness :
    processEntry (mergeOptions ⟨none, none, none, some 0⟩)
        (.file "huge.bin" 1000000000 "data" true true)
      = some (.file ⟨"huge", "bin", "data"⟩) :=
  maxFileSize_zero_disables_size_bound ⟨none, none, none, some 0⟩ "huge.bin" 1000000000
    "data" rfl (by decide) (by decide) true true
